import Mathlib

/-!
Verification development for the multi-backend CLI-agent gateway
(`extensions-claude-code-cli`).  The TypeScript sources are shallowly
embedded: JavaScript `Map`s become association lists in insertion order,
optional strings become `Option String` with explicit JS truthiness,
child-process event streams become lists of parsed events, and every
stateful method becomes a pure function on an explicit state record.
-/

namespace ClaudeBrain

/-- JS `s.slice(n)`: the characters from position `n` on.  (JS slices by
UTF-16 code unit; strings are modelled as character sequences.) -/
def jsSliceFrom (s : String) (n : Nat) : String :=
  ⟨s.data.drop n⟩

/-- JS `s.slice(0, n)`: the first `n` characters. -/
def jsSliceTo (s : String) (n : Nat) : String :=
  ⟨s.data.take n⟩

/-- JS `!s.trim()`: whether a string is empty after trimming, i.e. all
whitespace. -/
def jsTrimEmpty (s : String) : Bool :=
  s.data.all Char.isWhitespace

/-- JS truthiness of an optional string (`undefined`, `null` and `""` are
falsy). -/
def truthyOpt (o : Option String) : Bool :=
  match o with
  | none => false
  | some s => !(s == "")

/-- Association-list lookup, mirroring `Map.get` (keys are unique in a JS
`Map`). -/
def lookupAssoc {α : Type} (l : List (String × α)) (k : String) : Option α :=
  match l with
  | [] => none
  | (k0, v) :: rest => if k0 = k then some v else lookupAssoc rest k

/-- JS `Map.set` semantics: replace in place when the key exists (preserving
insertion order), otherwise append. -/
def setAssoc {α : Type} (l : List (String × α)) (k : String) (v : α) :
    List (String × α) :=
  match l with
  | [] => [(k, v)]
  | (k0, v0) :: rest =>
      if k0 = k then (k, v) :: rest else (k0, v0) :: setAssoc rest k v

/-- JS `Map.delete` semantics on an association list with unique keys. -/
def delAssoc {α : Type} (l : List (String × α)) (k : String) :
    List (String × α) :=
  match l with
  | [] => []
  | (k0, v0) :: rest =>
      if k0 = k then rest else (k0, v0) :: delAssoc rest k

/-- The two backend kinds routed by the session store
(`session-store.ts`, `type Backend = "claude" | "codex"`). -/
inductive Backend
  | claude
  | codex
deriving DecidableEq, Repr

/-- Model of `SessionStore.resolveBackend` (session-store.ts lines 76-79):
`if (!model) return "claude"; return codexModels.has(model) ? "codex" :
"claude"`.  The configured set is modelled as a list of model names. -/
def resolveBackend (codexModels : List String) (model : Option String) :
    Backend :=
  match model with
  | none => .claude
  | some m => if m = "" then .claude
              else if codexModels.contains m then .codex else .claude

/-! ### Ephemeral Codex backend (claude-runner.ts, class `CodexProcess`) -/

/-- Token usage reported by a `turn.completed` event. -/
structure TokenUsage where
  inputTokens : Nat
  cachedInputTokens : Nat
  outputTokens : Nat
deriving DecidableEq, Repr

/-- Parsed Codex JSONL events (`type ThreadEvent` in claude-runner.ts).
`item.*` events carry the item's `type` tag and its optional `text`;
malformed stdout lines are skipped by the reader and therefore never
appear in this list. -/
inductive CodexEvent
  | threadStarted (threadId : String)
  | turnStarted
  | turnCompleted (usage : TokenUsage)
  | turnFailed (msg : String)
  | itemStarted (itemType : String) (text : Option String)
  | itemUpdated (itemType : String) (text : Option String)
  | itemCompleted (itemType : String) (text : Option String)
  | errorEvent (msg : String)
deriving DecidableEq, Repr

/-- State threaded through `CodexProcess.processEvents`, plus the thread id
field of the surrounding object (mutated by `thread.started`) and the
ordered list of `onText` sink invocations. -/
structure CodexPEState where
  finalResponse : String
  usage : Option TokenUsage
  error : Option String
  lastSentLength : Nat
  threadId : Option String
  sink : List String
deriving DecidableEq, Repr

/-- Initial per-invocation state of `processEvents` (claude-runner.ts lines
527-530), with the object's current `threadId`. -/
def codexPEInit (tid : Option String) : CodexPEState :=
  { finalResponse := "", usage := none, error := none,
    lastSentLength := 0, threadId := tid, sink := [] }

/-- One step of the `for await (const line of rl)` dispatch switch in
`CodexProcess.processEvents` (claude-runner.ts lines 551-590). -/
def codexPEStep (s : CodexPEState) (e : CodexEvent) : CodexPEState :=
  match e with
  | .threadStarted tid => { s with threadId := some tid }
  | .turnStarted => s
  | .turnCompleted u => { s with usage := some u }
  | .turnFailed m => { s with error := some m }
  | .errorEvent m => { s with error := some m }
  | .itemStarted ty txt =>
      if ty = "agent_message" ∧ truthyOpt txt then
        let full := txt.getD ""
        let delta := jsSliceFrom full s.lastSentLength
        if delta = "" then s
        else { s with sink := s.sink ++ [delta], lastSentLength := full.length }
      else s
  | .itemUpdated ty txt =>
      if ty = "agent_message" ∧ truthyOpt txt then
        let full := txt.getD ""
        let delta := jsSliceFrom full s.lastSentLength
        if delta = "" then s
        else { s with sink := s.sink ++ [delta], lastSentLength := full.length }
      else s
  | .itemCompleted ty txt =>
      if ty = "agent_message" ∧ truthyOpt txt then
        let full := txt.getD ""
        let delta := jsSliceFrom full s.lastSentLength
        let s1 := if delta = "" then s else { s with sink := s.sink ++ [delta] }
        { s1 with finalResponse := full, lastSentLength := 0 }
      else s

/-- Model of `CodexProcess.processEvents` over a whole event stream. -/
def codexProcessEvents (tid : Option String) (events : List CodexEvent) :
    CodexPEState :=
  events.foldl codexPEStep (codexPEInit tid)

/-- Outcome of one spawned `codex exec` child: its parsed stdout events,
its exit code (`null` when no code is reported), and the collected stderr
chunks. -/
structure SpawnOutcome where
  events : List CodexEvent
  exitCode : Option Int
  stderrChunks : List String
deriving DecidableEq, Repr

/-- Condition `!turnResult.finalResponse.trim()` (claude-runner.ts line 481). -/
def codexNoOutput (s : CodexPEState) : Bool :=
  jsTrimEmpty s.finalResponse

/-- Result of a turn as seen by the caller of `sendMessage`: either the
resolved `{text, sessionId}` or the message of the thrown error. -/
inductive TurnOutcome
  | ok (text : String) (sessionId : String)
  | err (msg : String)
deriving DecidableEq, Repr

/-- The synthesized failure message of claude-runner.ts line 496:
`Codex failed (exit N):\n<joined stderr sliced to 500>` with the
`"no output"` placeholder when the slice is empty. -/
def codexExitErrMsg (code : Int) (stderrChunks : List String) : String :=
  let tail := jsSliceTo (String.intercalate "\n" stderrChunks) 500
  "Codex failed (exit " ++ toString code ++ "):\n" ++
    (if tail = "" then "no output" else tail)

/-- What one invocation of `CodexProcess.runTurn` does after its child's
event stream reaches EOF (claude-runner.ts lines 475-516): either a final
outcome (with the updated thread id) or a request to retry as a fresh
exec (after discarding the thread id). -/
inductive CodexTurnStep
  | done (r : TurnOutcome) (threadId : Option String)
  | retryFresh
deriving DecidableEq, Repr

/-- One invocation of `CodexProcess.runTurn` (claude-runner.ts lines
441-517), as a function of the object's thread id, the `isRetry` flag and
the spawned child's observed outcome.  `isResume = !isRetry && !!threadId`
(line 447). -/
def codexRunTurnOnce (tid : Option String) (isRetry : Bool)
    (o : SpawnOutcome) : CodexTurnStep :=
  let isResume := !isRetry && truthyOpt tid
  let pe := codexProcessEvents tid o.events
  let noOutput := codexNoOutput pe
  if isResume && noOutput && !isRetry then
    .retryFresh
  else if h : pe.error.isSome then
    .done (.err (pe.error.get h)) pe.threadId
  else
    match o.exitCode with
    | some c =>
        if c ≠ 0 ∧ noOutput then
          .done (.err (codexExitErrMsg c o.stderrChunks)) pe.threadId
        else
          .done (.ok (if pe.finalResponse = "" then "Done."
                      else pe.finalResponse) (pe.threadId.getD ""))
          pe.threadId
    | none =>
        .done (.ok (if pe.finalResponse = "" then "Done."
                    else pe.finalResponse) (pe.threadId.getD ""))
        pe.threadId

/-- Whether an invocation of `runTurn` is shaped as a resume
(`buildResumeArgs`, subcommand `exec resume <threadId>`) or as a fresh
exec (`buildExecArgs`). -/
def codexIsResume (tid : Option String) (isRetry : Bool) : Bool :=
  !isRetry && truthyOpt tid

/-- A full `CodexProcess.sendMessage` turn: run `runTurn` with
`isRetry = false`; when it requests the resume-retry, discard the stored
thread id and run `runTurn` once more with `isRetry = true` on the second
child's outcome.  Returns the invocation shapes (resume flags, in spawn
order), the final outcome, and the object's thread id afterwards. -/
def codexSendMessage (tid : Option String) (first second : SpawnOutcome) :
    List Bool × TurnOutcome × Option String :=
  match codexRunTurnOnce tid false first with
  | .done r tid1 => ([codexIsResume tid false], r, tid1)
  | .retryFresh =>
      match codexRunTurnOnce none true second with
      | .done r tid1 =>
          ([codexIsResume tid false, codexIsResume none true], r, tid1)
      | .retryFresh =>
          -- unreachable: with `isRetry = true`, `isResume` is false
          ([codexIsResume tid false, codexIsResume none true],
           .err "unreachable", none)

/-! ### Ephemeral Gemini backend (command-handler.ts, class `GeminiProcess`) -/

/-- Parsed Gemini stream-json events (`type GeminiEvent`). -/
inductive GemEvent
  | init (sessionId : String)
  | message (role : String) (content : String) (delta : Bool)
  | result (status : String) (stats : Option (Nat × Nat))
      (errMsg : Option String)
  | errorEvent (severity : String) (msg : String)
deriving DecidableEq, Repr

/-- State threaded through `GeminiProcess.processEvents`, with the
object's session id and the ordered `onText` sink invocations. -/
structure GemPEState where
  finalResponse : String
  usage : Option (Nat × Nat)
  error : Option String
  sid : Option String
  sink : List String
deriving DecidableEq, Repr

/-- Initial state of `GeminiProcess.processEvents`. -/
def gemPEInit (sid : Option String) : GemPEState :=
  { finalResponse := "", usage := none, error := none, sid := sid,
    sink := [] }

/-- One step of the event switch in `GeminiProcess.processEvents`
(command-handler.ts lines 551-590).  A `message` event with `delta: true`
invokes the sink with its content unconditionally and appends it; without
the delta flag the new content is diffed against the accumulated text. -/
def gemPEStep (s : GemPEState) (e : GemEvent) : GemPEState :=
  match e with
  | .init sid => { s with sid := some sid }
  | .message role content delta =>
      if role = "assistant" then
        if delta then
          { s with sink := s.sink ++ [content],
                   finalResponse := s.finalResponse ++ content }
        else
          let d := jsSliceFrom content s.finalResponse.length
          let s1 := if d = "" then s else { s with sink := s.sink ++ [d] }
          { s1 with finalResponse := content }
      else s
  | .result status stats errMsg =>
      if status = "success" then
        match stats with
        | some u => { s with usage := some u }
        | none => s
      else { s with error := some (errMsg.getD "Unknown error") }
  | .errorEvent severity m =>
      if severity = "error" then { s with error := some m } else s

/-- Model of `GeminiProcess.processEvents` over a whole event stream. -/
def gemProcessEvents (sid : Option String) (events : List GemEvent) :
    GemPEState :=
  events.foldl gemPEStep (gemPEInit sid)

/-- Outcome of one spawned `gemini -p` child. -/
structure GemSpawnOutcome where
  events : List GemEvent
  exitCode : Option Int
  stderrChunks : List String
deriving DecidableEq, Repr

/-- The synthesized failure message of command-handler.ts line 497. -/
def gemExitErrMsg (code : Int) (stderrChunks : List String) : String :=
  let tail := jsSliceTo (String.intercalate "\n" stderrChunks) 500
  "Gemini failed (exit " ++ toString code ++ "):\n" ++
    (if tail = "" then "no output" else tail)

/-- One invocation of `GeminiProcess.runTurn` after EOF (command-handler.ts
lines 477-518); identical control flow to `CodexProcess.runTurn`. -/
def gemRunTurnOnce (sid : Option String) (isRetry : Bool)
    (o : GemSpawnOutcome) : CodexTurnStep :=
  let isResume := !isRetry && truthyOpt sid
  let pe := gemProcessEvents sid o.events
  let noOutput := jsTrimEmpty pe.finalResponse
  if isResume && noOutput && !isRetry then
    .retryFresh
  else if h : pe.error.isSome then
    .done (.err (pe.error.get h)) pe.sid
  else
    match o.exitCode with
    | some c =>
        if c ≠ 0 ∧ noOutput then
          .done (.err (gemExitErrMsg c o.stderrChunks)) pe.sid
        else
          .done (.ok (if pe.finalResponse = "" then "Done."
                      else pe.finalResponse) (pe.sid.getD ""))
          pe.sid
    | none =>
        .done (.ok (if pe.finalResponse = "" then "Done."
                    else pe.finalResponse) (pe.sid.getD ""))
        pe.sid

/-- A full `GeminiProcess.sendMessage` turn with the at-most-one
resume-retry, mirroring `codexSendMessage`. -/
def gemSendMessage (sid : Option String) (first second : GemSpawnOutcome) :
    List Bool × TurnOutcome × Option String :=
  match gemRunTurnOnce sid false first with
  | .done r sid1 => ([codexIsResume sid false], r, sid1)
  | .retryFresh =>
      match gemRunTurnOnce none true second with
      | .done r sid1 =>
          ([codexIsResume sid false, codexIsResume none true], r, sid1)
      | .retryFresh =>
          ([codexIsResume sid false, codexIsResume none true],
           .err "unreachable", none)

/-! ### Persistent Claude backend (claude-process.ts, class `ClaudeProcess`)

Only the per-turn stdout dispatch relevant to the streaming contract is
modelled: `system`/`init`, `stream_event` text deltas, and the terminal
`result` event.  `assistant` and `user` events touch only the
`turnFullText` buffer (tool-call formatting), which they extend by an
opaque formatted string. -/

/-- Parsed stdout events of the persistent `claude` child as dispatched by
`ClaudeProcess.processLine` (claude-process.ts lines 224-348).
`toolText` stands for the formatted output a matched `assistant` or
`user` event appends to `turnFullText`; unparseable lines are skipped. -/
inductive ClaudeEvent
  | systemInit (sessionId : String)
  | streamDelta (text : String)
  | toolText (formatted : String)
  | resultEvent (sessionId : Option String) (isError : Bool)
  | other
deriving DecidableEq, Repr

/-- Per-turn state of a `ClaudeProcess`: the prose and full buffers, the
object's session id, the ordered sink invocations, and the resolved turn
result once the first `result` event fires (after which `turnResolve` and
`turnOnText` are null). -/
structure ClaudeTurnState where
  prose : String
  fullText : String
  sid : String
  sink : List String
  result : Option (String × String)
deriving DecidableEq, Repr

/-- State at the start of a turn: `sendMessage` resets the per-turn
buffers (claude-process.ts lines 195-199). -/
def claudeTurnInit (sid : String) : ClaudeTurnState :=
  { prose := "", fullText := "", sid := sid, sink := [], result := none }

/-- One `processLine` dispatch during a turn.  A `text_delta` appends to
both buffers and invokes `turnOnText` when a turn is registered; the
first `result` event resolves the turn with the accumulated prose and
clears the callbacks, so later deltas no longer reach the sink and later
`result` events are ignored. -/
def claudeStep (s : ClaudeTurnState) (e : ClaudeEvent) : ClaudeTurnState :=
  match e with
  | .systemInit sid => { s with sid := sid }
  | .streamDelta t =>
      { s with prose := s.prose ++ t, fullText := s.fullText ++ t,
               sink := if s.result.isNone then s.sink ++ [t] else s.sink }
  | .toolText f => { s with fullText := s.fullText ++ f }
  | .resultEvent sid _ =>
      let s1 := match sid with
                | some v => { s with sid := v }
                | none => s
      if s1.result.isNone then
        { s1 with result := some (s1.prose, s1.sid) }
      else s1
  | .other => s

/-- A whole turn of the persistent process: fold the stdout events emitted
while the turn is in flight. -/
def claudeRunTurn (sid : String) (events : List ClaudeEvent) :
    ClaudeTurnState :=
  events.foldl claudeStep (claudeTurnInit sid)

/-! ### sendMessage entry guards (single-turn-at-a-time enforcement)

Each variant's `sendMessage` begins with fail-fast checks before any turn
work; the relevant object fields and every mutation of them in the class
are modelled explicitly. -/

/-- Result of the fail-fast checks at the top of `sendMessage`. -/
inductive GuardResult
  | notRunning
  | busy
  | proceed
deriving DecidableEq, Repr

/-- The `ClaudeProcess` fields read or written around a turn. -/
structure ClaudeGuardState where
  childExists : Bool
  alive : Bool
  turnResolveSet : Bool
deriving DecidableEq, Repr

/-- Model of the `ClaudeProcess.sendMessage` entry checks (claude-process.ts lines
187-193): not-running when the child is gone or dead, Busy when
`turnResolve` is set. -/
def claudeSendMessageGuard (s : ClaudeGuardState) : GuardResult :=
  if !s.childExists || !s.alive then .notRunning
  else if s.turnResolveSet then .busy
  else .proceed

/-- The `CodexProcess` fields involved in its guards: `stopped`,
`currentChild` (non-null while a child runs) and `turnResolve`. -/
structure CodexGuardState where
  stopped : Bool
  currentChildExists : Bool
  turnResolveSet : Bool
deriving DecidableEq, Repr

/-- Model of the `CodexProcess.sendMessage` entry checks (claude-runner.ts lines
378-383): rejects when stopped, rejects Busy when `this.turnResolve` is
set. -/
def codexSendMessageGuard (s : CodexGuardState) : GuardResult :=
  if s.stopped then .notRunning
  else if s.turnResolveSet then .busy
  else .proceed

/-- Model of `CodexProcess.isBusy` (claude-runner.ts lines 394-396):
`this.currentChild !== null`. -/
def codexIsBusy (s : CodexGuardState) : Bool :=
  s.currentChildExists

/-- Every mutation of the `CodexProcess` fields above, taken from the
class body: `runTurn` assigns `currentChild` on spawn and clears it at
exit; `abortTurn` nulls `turnResolve`/`turnReject`; `stop` sets `stopped`
and calls `abortTurn`; `restart` clears `stopped`; `start` is a no-op.
No statement in the class ever assigns a non-null `turnResolve`. -/
inductive CodexOp
  | startOp
  | spawnChild
  | childExit
  | abortOp
  | stopOp
  | restartOp
deriving DecidableEq, Repr

/-- Field effect of each `CodexProcess` operation. -/
def codexApply (s : CodexGuardState) (op : CodexOp) : CodexGuardState :=
  match op with
  | .startOp => s
  | .spawnChild => { s with currentChildExists := true }
  | .childExit => { s with currentChildExists := false }
  | .abortOp => { s with turnResolveSet := false }
  | .stopOp => { s with stopped := true, turnResolveSet := false }
  | .restartOp => { s with stopped := false }

/-- Constructor state of a `CodexProcess` (claude-runner.ts lines
352-369). -/
def codexInitState : CodexGuardState :=
  { stopped := false, currentChildExists := false, turnResolveSet := false }

/-- A reachable `CodexProcess` state after any sequence of operations. -/
def codexReach (ops : List CodexOp) : CodexGuardState :=
  ops.foldl codexApply codexInitState

/-- The `GeminiProcess` fields involved in its guards. -/
structure GemGuardState where
  stopped : Bool
  currentChildExists : Bool
deriving DecidableEq, Repr

/-- Model of the `GeminiProcess.sendMessage` entry checks (command-handler.ts lines
383-388): rejects when stopped, rejects Busy when `this.currentChild` is
non-null. -/
def gemSendMessageGuard (s : GemGuardState) : GuardResult :=
  if s.stopped then .notRunning
  else if s.currentChildExists then .busy
  else .proceed

/-! ### Session registry (session-store.ts, class `SessionStore`) -/

/-- The observable surface of a live session's process that the store
reads (`isBusy`, `isAlive`, `getSessionId`, `getTotalCost`), together
with the entry fields of `SessionEntry`. -/
structure StoreEntry where
  busy : Bool
  alive : Bool
  procSessionId : String
  cost : Nat
  backend : Backend
  lastActivity : Nat
  cwd : String
  model : Option String
deriving DecidableEq, Repr

/-- A `deadSessionIds` record (session-store.ts line 58). -/
structure DeadInfo where
  sessionId : String
  cwd : String
  model : Option String
  backend : Backend
deriving DecidableEq, Repr

/-- A persisted entry (`interface PersistedSession`). -/
structure PersistedSession where
  sessionId : String
  backend : Backend
  model : String
  cwd : String
deriving DecidableEq, Repr

/-- The `SessionStore` state the modelled operations touch. -/
structure StoreState where
  sessions : List (String × StoreEntry)
  deadSessionIds : List (String × DeadInfo)
  persisted : List (String × PersistedSession)
  maxSessions : Nat
deriving DecidableEq, Repr

/-- The single pass of `enforceMaxSessions` that picks the eviction
candidate (session-store.ts lines 324-332): the accumulator holds
`(oldestKey, oldestTime)`, starting from `(null, Infinity)`, updated when
an entry is not busy and strictly older. -/
def evictAccStep (acc : Option (String × Nat)) (p : String × StoreEntry) :
    Option (String × Nat) :=
  if p.2.busy then acc
  else
    match acc with
    | none => some (p.1, p.2.lastActivity)
    | some (k, t) =>
        if p.2.lastActivity < t then some (p.1, p.2.lastActivity)
        else some (k, t)

/-- The eviction candidate: `oldestKey` after the scan. -/
def evictionCandidate (sessions : List (String × StoreEntry)) :
    Option String :=
  (sessions.foldl evictAccStep none).map Prod.fst

/-- Model of `SessionStore.enforceMaxSessions` (session-store.ts lines 321-344):
return unchanged when below `maxSessions`; otherwise destroy the chosen
candidate, recording its current process session id as dead when
non-empty. -/
def enforceMaxSessions (s : StoreState) : StoreState :=
  if s.sessions.length < s.maxSessions then s
  else
    match evictionCandidate s.sessions with
    | none => s
    | some k =>
        match lookupAssoc s.sessions k with
        | none => s
        | some e =>
            let dead :=
              if e.procSessionId ≠ "" then
                setAssoc s.deadSessionIds e.procSessionId
                  { sessionId := e.procSessionId, cwd := e.cwd,
                    model := e.model, backend := e.backend }
              else s.deadSessionIds
            { s with sessions := delAssoc s.sessions k,
                     deadSessionIds := dead }

/-- The resume-id resolution inside `createSession` (session-store.ts
lines 100-107): an explicit truthy `resumeSessionId` wins; otherwise the
persisted entry for the conversation is adopted exactly when it exists,
its backend matches, and its stored session id is truthy. -/
def createSessionResumeId (persisted : List (String × PersistedSession))
    (conversationId : String) (explicitResume : Option String)
    (backend : Backend) : Option String :=
  if truthyOpt explicitResume then explicitResume
  else
    match lookupAssoc persisted conversationId with
    | some saved =>
        if saved.backend = backend ∧ saved.sessionId ≠ "" then
          some saved.sessionId
        else explicitResume
    | none => explicitResume

/-- Model of `SessionStore.createSession` on the modelled state (session-store.ts
lines 92-143): evict if needed, resolve the backend and resume id, then
record the new entry under the conversation id.  The freshly created
process is not busy, is alive, and reports `resumeId ?? ""` (codex) or
`""` (claude) as its session id until events arrive; `now` stands for
`Date.now()`. -/
def createSession (s : StoreState) (conversationId : String)
    (codexModels : List String) (cwd : String) (model : Option String)
    (explicitResume : Option String) (now : Nat) : StoreState × StoreEntry :=
  let s1 := enforceMaxSessions s
  let backend := resolveBackend codexModels model
  let resumeId := createSessionResumeId s1.persisted conversationId
    explicitResume backend
  let entry : StoreEntry :=
    { busy := false, alive := true,
      procSessionId := if backend = .codex then resumeId.getD "" else "",
      cost := 0, backend := backend, lastActivity := now, cwd := cwd,
      model := model }
  ({ s1 with sessions := setAssoc s1.sessions conversationId entry }, entry)

/-- A row of `SessionStore.listSessions` (session-store.ts lines
211-265). -/
structure SessionRow where
  conversationId : String
  sessionId : String
  alive : Bool
  backend : Backend
  cwd : String
  model : Option String
  lastActivity : Nat
  cost : Nat
deriving DecidableEq, Repr

/-- The live row built for a session whose process reports a truthy
session id; sessions reporting `""` yield no row. -/
def liveRow (p : String × StoreEntry) : Option SessionRow :=
  if p.2.procSessionId = "" then none
  else some
    { conversationId := p.1, sessionId := p.2.procSessionId,
      alive := p.2.alive, backend := p.2.backend, cwd := p.2.cwd,
      model := p.2.model, lastActivity := p.2.lastActivity,
      cost := p.2.cost }

/-- The row built for a dead-session record. -/
def deadRow (p : String × DeadInfo) : SessionRow :=
  { conversationId := "", sessionId := p.1, alive := false,
    backend := p.2.backend, cwd := p.2.cwd, model := p.2.model,
    lastActivity := 0, cost := 0 }

/-- Model of `SessionStore.listSessions`: live rows (in map order, skipping empty
process session ids) followed by the dead records whose id is not among
the emitted live session ids. -/
def listSessions (s : StoreState) : List SessionRow :=
  let live := s.sessions.filterMap liveRow
  let activeSids := live.map (fun r => r.sessionId)
  live ++ (s.deadSessionIds.filter
    (fun p => !(activeSids.contains p.1))).map deadRow

/-- Model of `SessionStore.getSession`: a plain map lookup, with no session-id
filtering. -/
def getSession (s : StoreState) (conversationId : String) :
    Option StoreEntry :=
  lookupAssoc s.sessions conversationId

/-! ### WS task handler (arinova-agent.ts, `agent.onTask`) -/

/-- Outcome of one `process.sendMessage` call as observed by the task
handler. -/
inductive SendOutcome
  | ok (text : String) (sessionId : String)
  | fail (msg : String)
deriving DecidableEq, Repr

/-- One task's environment: the outcome of the first `sendMessage`, the
cancellation token's value when the first failure is caught
(`task.signal.aborted`, arinova-agent.ts line 117), the outcome of the
post-restart retry, and the token's value at the outer catch (line
155). -/
structure WsScenario where
  firstSend : SendOutcome
  abortedAtFirstCatch : Bool
  secondSend : SendOutcome
  abortedAtOuterCatch : Bool
deriving DecidableEq, Repr

/-- What the frontend observes at the end of a task. -/
inductive WsEnd
  | complete (text : String)
  | errorSent (msg : String)
  | silent
deriving DecidableEq, Repr

/-- A task's observable trace: the terminal frontend call, the number of
`sendMessage` invocations, and the number of `process.restart` calls. -/
structure WsTrace where
  outcome : WsEnd
  sendCalls : Nat
  restarts : Nat
deriving DecidableEq, Repr

/-- The retry/cancellation core of the `agent.onTask` handler
(arinova-agent.ts lines 110-159): on a first failure return silently when
the token has tripped, otherwise restart and call `sendMessage` exactly
once more; a failure of the retry reaches the outer catch, which is
silent when the token has tripped and reports the error otherwise.
Image-path post-processing of the completed text is identity-abstracted. -/
def wsHandleTask (sc : WsScenario) : WsTrace :=
  match sc.firstSend with
  | .ok t _ => { outcome := .complete t, sendCalls := 1, restarts := 0 }
  | .fail _ =>
      if sc.abortedAtFirstCatch then
        { outcome := .silent, sendCalls := 1, restarts := 0 }
      else
        match sc.secondSend with
        | .ok t _ => { outcome := .complete t, sendCalls := 2, restarts := 1 }
        | .fail m2 =>
            if sc.abortedAtOuterCatch then
              { outcome := .silent, sendCalls := 2, restarts := 1 }
            else
              { outcome := .errorSent m2, sendCalls := 2, restarts := 1 }

/-! ### Helper lemmas -/

/-- A string that extends to `b` is `b`'s initial segment of its own
length. -/
lemma jsSliceTo_of_append (a t : String) :
    jsSliceTo (a ++ t) a.length = a := by
  show (⟨((a.data ++ t.data)).take a.data.length⟩ : String) = a
  rw [List.take_left]

/-- Lookup finds the value just written by `setAssoc`. -/
lemma lookupAssoc_setAssoc_self {α : Type} (l : List (String × α))
    (k : String) (v : α) : lookupAssoc (setAssoc l k v) k = some v := by
  induction l with
  | nil => simp [setAssoc, lookupAssoc]
  | cons p rest ih =>
      by_cases h : p.1 = k
      · simp [setAssoc, h, lookupAssoc]
      · simp [setAssoc, h, lookupAssoc, ih]

/-- With unique keys, membership determines the `lookupAssoc` result. -/
lemma lookupAssoc_eq_of_mem_nodup {α : Type}
    (l : List (String × α)) (k : String) (v : α)
    (hnd : (l.map Prod.fst).Nodup) (hm : (k, v) ∈ l) :
    lookupAssoc l k = some v := by
  induction l with
  | nil => cases hm
  | cons p rest ih =>
      rcases List.mem_cons.mp hm with h | h
      · subst h
        simp [lookupAssoc]
      · have hk : p.1 ≠ k := by
          intro hkk
          have : k ∈ rest.map Prod.fst := by
            exact List.mem_map.mpr ⟨(k, v), h, rfl⟩
          rw [List.map_cons, List.nodup_cons] at hnd
          exact hnd.1 (hkk ▸ this)
        simpa [lookupAssoc, hk] using
          ih (by rw [List.map_cons, List.nodup_cons] at hnd; exact hnd.2) h

/-! ### C7: backend classification -/

/-- C7: `resolveBackend(model)` returns the Ephemeral (codex) backend iff
the model string is a member of the configured ephemeral-models set; an
absent or empty model yields the Persistent (claude) backend.  (The two
parts of the claim are jointly consistent exactly when the configured set
does not contain the empty string, which the non-membership hypothesis
records.) -/
theorem resolveBackend_classification (codexModels : List String)
    (model : Option String) (hne : "" ∉ codexModels) :
    (resolveBackend codexModels model = .codex ↔
       ∃ m, model = some m ∧ m ∈ codexModels) ∧
    resolveBackend codexModels none = .claude ∧
    resolveBackend codexModels (some "") = .claude := by
  refine ⟨?_, rfl, by simp [resolveBackend]⟩
  cases model with
  | none => simp [resolveBackend]
  | some m =>
      by_cases hm : m = ""
      · subst hm
        simp [resolveBackend]
        intro h
        exact absurd h hne
      · by_cases hmem : m ∈ codexModels
        · simp [resolveBackend, hm, hmem]
        · simp [resolveBackend, hm, hmem]

/-- Witness for C7 at a concrete configuration. -/
theorem resolveBackend_classification_witness :
    ("" ∉ (["m-e"] : List String)) ∧
    ((resolveBackend ["m-e"] (some "m-e") = .codex ↔
        ∃ m, (some "m-e" : Option String) = some m ∧ m ∈ ["m-e"]) ∧
      resolveBackend ["m-e"] none = .claude ∧
      resolveBackend ["m-e"] (some "") = .claude) :=
  ⟨by decide, resolveBackend_classification ["m-e"] (some "m-e") (by decide)⟩

/-! ### C8: persisted-entry adoption in createSession -/

/-- C8: with no explicit resume id, `createSession` adopts the persisted
entry for the conversation as the resume id iff the entry exists, its
stored backend matches `resolveBackend(model)`, and its session id is
non-empty; otherwise the process is created without a resume id. -/
theorem createSession_resume_adoption
    (persisted : List (String × PersistedSession)) (convId : String)
    (codexModels : List String) (model : Option String) (r : String) :
    createSessionResumeId persisted convId none
        (resolveBackend codexModels model) = some r ↔
      ∃ saved, lookupAssoc persisted convId = some saved ∧
        saved.backend = resolveBackend codexModels model ∧
        saved.sessionId = r ∧ r ≠ "" := by
  unfold createSessionResumeId
  have ht : truthyOpt (none : Option String) = false := rfl
  rw [ht]
  simp only [Bool.false_eq_true, if_false]
  cases h : lookupAssoc persisted convId with
  | none => simp
  | some saved =>
      dsimp only
      by_cases hcond : saved.backend = resolveBackend codexModels model ∧
          saved.sessionId ≠ ""
      · rw [if_pos hcond]
        constructor
        · intro he
          have he2 : saved.sessionId = r := Option.some.inj he
          exact ⟨saved, rfl, hcond.1, he2, he2 ▸ hcond.2⟩
        · rintro ⟨sv, hsv, hb2, hsid, hr⟩
          have hsv2 : saved = sv := Option.some.inj hsv
          subst hsv2
          rw [hsid]
      · rw [if_neg hcond]
        constructor
        · intro he
          exact absurd he (by simp)
        · rintro ⟨sv, hsv, hb2, hsid, hr⟩
          have hsv2 : saved = sv := Option.some.inj hsv
          subst hsv2
          exact absurd ⟨hb2, by rw [hsid]; exact hr⟩ hcond

/-! ### C5: turn-coordinator retry and cancellation silence -/

/-- C5: in the WS task handler, a failed `sendMessage` with an untripped
cancellation token leads to one `restart` and exactly one more
`sendMessage` (never a third call); with the token tripped, no retry is
attempted and nothing reaches the frontend; and whenever the token has
tripped by the time an error would be reported, no error is sent. -/
theorem ws_retry_and_cancellation (sc : WsScenario) (m : String)
    (hf : sc.firstSend = .fail m) :
    (sc.abortedAtFirstCatch = false →
       (wsHandleTask sc).restarts = 1 ∧ (wsHandleTask sc).sendCalls = 2) ∧
    (sc.abortedAtFirstCatch = true →
       wsHandleTask sc =
         { outcome := .silent, sendCalls := 1, restarts := 0 }) ∧
    ((sc.abortedAtFirstCatch = true ∨ sc.abortedAtOuterCatch = true) →
       ∀ msg, ¬ (wsHandleTask sc).outcome = .errorSent msg) ∧
    (wsHandleTask sc).sendCalls ≤ 2 := by
  unfold wsHandleTask
  rw [hf]
  cases ha : sc.abortedAtFirstCatch with
  | true => simp
  | false =>
      cases hs : sc.secondSend with
      | ok t sid => simp
      | fail m2 =>
          cases ho : sc.abortedAtOuterCatch with
          | true => simp
          | false => simp

/-- The concrete scenario used by the C5 witness: first send fails,
token untripped, retry succeeds. -/
def wsScenarioW : WsScenario :=
  { firstSend := .fail "boom", abortedAtFirstCatch := false,
    secondSend := .ok "hi" "S1", abortedAtOuterCatch := false }

/-- Witness for C5: a concrete failing first send with an untripped token
retries exactly once. -/
theorem ws_retry_and_cancellation_witness :
    (wsScenarioW.firstSend = .fail "boom") ∧
    ((wsScenarioW.abortedAtFirstCatch = false →
        (wsHandleTask wsScenarioW).restarts = 1 ∧
        (wsHandleTask wsScenarioW).sendCalls = 2) ∧
     (wsScenarioW.abortedAtFirstCatch = true →
        wsHandleTask wsScenarioW =
          { outcome := .silent, sendCalls := 1, restarts := 0 }) ∧
     ((wsScenarioW.abortedAtFirstCatch = true ∨
       wsScenarioW.abortedAtOuterCatch = true) →
        ∀ msg, ¬ (wsHandleTask wsScenarioW).outcome = .errorSent msg) ∧
     (wsHandleTask wsScenarioW).sendCalls ≤ 2) :=
  ⟨rfl, ws_retry_and_cancellation wsScenarioW "boom" rfl⟩

/-! ### C1: single-turn-at-a-time enforcement (code bug in CodexProcess) -/

/-- C1 (code bug): the Busy rejection of `CodexProcess.sendMessage` checks
`this.turnResolve`, but no statement of the class ever assigns it a
non-null value, so in every reachable state the guard resolves to
not-running or proceed — in particular a busy `CodexProcess` (child in
flight) lets a second `sendMessage` through.  The Persistent
(ClaudeProcess) and Gemini guards do reject Busy while a turn is in
flight. -/
theorem codex_busy_guard_never_fires :
    (∀ ops : List CodexOp,
       (codexReach ops).turnResolveSet = false ∧
       codexSendMessageGuard (codexReach ops) =
         (if (codexReach ops).stopped then .notRunning else .proceed)) ∧
    (codexIsBusy (codexApply codexInitState .spawnChild) = true ∧
     codexSendMessageGuard (codexApply codexInitState .spawnChild) =
       .proceed) ∧
    claudeSendMessageGuard
      { childExists := true, alive := true, turnResolveSet := true } =
      .busy ∧
    gemSendMessageGuard { stopped := false, currentChildExists := true } =
      .busy := by
  refine ⟨?_, by decide, by decide, by decide⟩
  intro ops
  have hinv : ∀ (l : List CodexOp) (s : CodexGuardState),
      s.turnResolveSet = false →
      (l.foldl codexApply s).turnResolveSet = false := by
    intro l
    induction l with
    | nil => intro s hs; exact hs
    | cons op rest ih =>
        intro s hs
        apply ih
        cases op <;> simp [codexApply, hs]
  have h1 : (codexReach ops).turnResolveSet = false :=
    hinv ops codexInitState rfl
  refine ⟨h1, ?_⟩
  unfold codexSendMessageGuard
  rw [h1]
  simp

/-- The `runTurn` step requests the resume-retry exactly when the invocation was a
resume and the event stream produced no (non-whitespace) agent text. -/
lemma codexRunTurnOnce_retryFresh_iff (tid : Option String)
    (isRetry : Bool) (o : SpawnOutcome) :
    codexRunTurnOnce tid isRetry o = .retryFresh ↔
      (isRetry = false ∧ truthyOpt tid = true ∧
       codexNoOutput (codexProcessEvents tid o.events) = true) := by
  unfold codexRunTurnOnce
  by_cases hc : ((!isRetry && truthyOpt tid) &&
      codexNoOutput (codexProcessEvents tid o.events) && !isRetry) = true
  · rw [if_pos hc]
    simp only [Bool.and_eq_true, Bool.not_eq_true'] at hc
    exact ⟨fun _ => ⟨hc.1.1.1, hc.1.1.2, hc.1.2⟩, fun _ => rfl⟩
  · rw [if_neg hc]
    constructor
    · intro h
      by_cases he : (codexProcessEvents tid o.events).error.isSome
      · rw [dif_pos he] at h
        cases h
      · rw [dif_neg he] at h
        cases hx : o.exitCode with
        | some c =>
            rw [hx] at h
            dsimp only at h
            split at h <;> cases h
        | none =>
            rw [hx] at h
            dsimp only at h
            cases h
    · rintro ⟨h1, h2, h3⟩
      exact absurd (by rw [h1, h2, h3]; rfl) hc

/-- A `runTurn` invocation that does not request the retry returns `done`;
in particular the retrying invocation (`isRetry = true`) always does. -/
lemma codexRunTurnOnce_done_of_isRetry (o : SpawnOutcome) :
    ∃ r tid1, codexRunTurnOnce none true o = .done r tid1 := by
  cases h : codexRunTurnOnce none true o with
  | done r tid1 => exact ⟨r, tid1, rfl⟩
  | retryFresh =>
      have := (codexRunTurnOnce_retryFresh_iff none true o).mp h
      cases this.1

/-! ### C4: the resume-retry rule of the ephemeral Codex backend -/

/-- C4: a resume invocation whose event stream yields no agent text is
re-invoked exactly once as a fresh non-resume spawn (resume flags
`[true, false]`); a resume with output does not retry; a fresh (non-resume)
turn never retries; and a retry invocation never triggers a further
retry, so at most two children are ever spawned per `sendMessage`. -/
theorem codex_resume_retry_rule (tid : Option String)
    (first second : SpawnOutcome) :
    ((codexSendMessage tid first second).1.length ≤ 2) ∧
    (truthyOpt tid = false →
       (codexSendMessage tid first second).1 = [false]) ∧
    (truthyOpt tid = true →
       codexNoOutput (codexProcessEvents tid first.events) = true →
       (codexSendMessage tid first second).1 = [true, false]) ∧
    (truthyOpt tid = true →
       codexNoOutput (codexProcessEvents tid first.events) = false →
       (codexSendMessage tid first second).1 = [true]) ∧
    (∀ o : SpawnOutcome, ∃ r tid1,
       codexRunTurnOnce none true o = .done r tid1) := by
  refine ⟨?_, ?_, ?_, ?_, codexRunTurnOnce_done_of_isRetry⟩
  · unfold codexSendMessage
    cases h : codexRunTurnOnce tid false first with
    | done r tid1 => simp
    | retryFresh =>
        cases h2 : codexRunTurnOnce none true second with
        | done r tid1 => simp
        | retryFresh => simp
  · intro ht
    unfold codexSendMessage
    cases h : codexRunTurnOnce tid false first with
    | done r tid1 => simp [codexIsResume, ht]
    | retryFresh =>
        have := (codexRunTurnOnce_retryFresh_iff tid false first).mp h
        rw [this.2.1] at ht
        cases ht
  · intro ht hno
    unfold codexSendMessage
    have h : codexRunTurnOnce tid false first = .retryFresh :=
      (codexRunTurnOnce_retryFresh_iff tid false first).mpr ⟨rfl, ht, hno⟩
    rw [h]
    obtain ⟨r, tid1, h2⟩ := codexRunTurnOnce_done_of_isRetry second
    rw [h2]
    simp [codexIsResume, ht]
  · intro ht hno
    unfold codexSendMessage
    cases h : codexRunTurnOnce tid false first with
    | done r tid1 => simp [codexIsResume, ht]
    | retryFresh =>
        have := (codexRunTurnOnce_retryFresh_iff tid false first).mp h
        rw [this.2.2] at hno
        cases hno

/-- The concrete resume-with-no-output scenario used by the C4 witness:
a stored thread id, an empty first event stream, a successful fresh
rerun. -/
def c4First : SpawnOutcome :=
  { events := [], exitCode := some 0, stderrChunks := [] }

/-- Second spawn of the C4 witness scenario. -/
def c4Second : SpawnOutcome :=
  { events := [.threadStarted "T43",
               .itemCompleted "agent_message" (some "hello")],
    exitCode := some 0, stderrChunks := [] }

/-- Witness for C4: with thread id `T42` stored and no output from the
resume, exactly one fresh retry happens. -/
theorem codex_resume_retry_rule_witness :
    (truthyOpt (some "T42") = true ∧
     codexNoOutput (codexProcessEvents (some "T42") c4First.events) = true) ∧
    (codexSendMessage (some "T42") c4First c4Second).1 = [true, false] :=
  ⟨⟨rfl, rfl⟩,
   ((codex_resume_retry_rule (some "T42") c4First c4Second).2.2.1) rfl rfl⟩

/-- The text of a successful Codex turn is `finalResponse || "Done."`. -/
lemma codexRunTurnOnce_ok_text (tid : Option String) (isRetry : Bool)
    (o : SpawnOutcome) (t sidv : String) (tid1 : Option String)
    (h : codexRunTurnOnce tid isRetry o = .done (.ok t sidv) tid1) :
    t = (if (codexProcessEvents tid o.events).finalResponse = "" then "Done."
         else (codexProcessEvents tid o.events).finalResponse) ∧
    sidv = (codexProcessEvents tid o.events).threadId.getD "" := by
  unfold codexRunTurnOnce at h
  dsimp only at h
  by_cases hA : (!isRetry && truthyOpt tid &&
      codexNoOutput (codexProcessEvents tid o.events) && !isRetry) = true
  · rw [if_pos hA] at h
    cases h
  · rw [if_neg hA] at h
    by_cases hB : (codexProcessEvents tid o.events).error.isSome
    · rw [dif_pos hB] at h
      simp at h
    · rw [dif_neg hB] at h
      cases hx : o.exitCode with
      | some c =>
          rw [hx] at h
          dsimp only at h
          by_cases hC : c ≠ 0 ∧
              codexNoOutput (codexProcessEvents tid o.events) = true
          · rw [if_pos hC] at h
            simp at h
          · rw [if_neg hC] at h
            injection h with h1 h2
            injection h1 with ha hb
            exact ⟨ha.symm, hb.symm⟩
      | none =>
          rw [hx] at h
          dsimp only at h
          injection h with h1 h2
          injection h1 with ha hb
          exact ⟨ha.symm, hb.symm⟩

/-- The text of a successful Gemini turn is `finalResponse || "Done."`. -/
lemma gemRunTurnOnce_ok_text (sid : Option String) (isRetry : Bool)
    (o : GemSpawnOutcome) (t sidv : String) (sid1 : Option String)
    (h : gemRunTurnOnce sid isRetry o = .done (.ok t sidv) sid1) :
    t = (if (gemProcessEvents sid o.events).finalResponse = "" then "Done."
         else (gemProcessEvents sid o.events).finalResponse) ∧
    sidv = (gemProcessEvents sid o.events).sid.getD "" := by
  unfold gemRunTurnOnce at h
  dsimp only at h
  by_cases hA : (!isRetry && truthyOpt sid &&
      jsTrimEmpty (gemProcessEvents sid o.events).finalResponse &&
      !isRetry) = true
  · rw [if_pos hA] at h
    cases h
  · rw [if_neg hA] at h
    by_cases hB : (gemProcessEvents sid o.events).error.isSome
    · rw [dif_pos hB] at h
      simp at h
    · rw [dif_neg hB] at h
      cases hx : o.exitCode with
      | some c =>
          rw [hx] at h
          dsimp only at h
          by_cases hC : c ≠ 0 ∧
              jsTrimEmpty (gemProcessEvents sid o.events).finalResponse = true
          · rw [if_pos hC] at h
            simp at h
          · rw [if_neg hC] at h
            injection h with h1 h2
            injection h1 with ha hb
            exact ⟨ha.symm, hb.symm⟩
      | none =>
          rw [hx] at h
          dsimp only at h
          injection h with h1 h2
          injection h1 with ha hb
          exact ⟨ha.symm, hb.symm⟩

/-! ### C10: the "Done." fallback of the ephemeral backends -/

/-- C10: for both ephemeral variants, a successfully completing turn whose
accumulated agent text is empty resolves with the literal `"Done."`,
and one with non-empty agent text resolves with exactly that text. -/
theorem ephemeral_done_fallback
    (tid : Option String) (isRetry : Bool) (o : SpawnOutcome)
    (gsid : Option String) (gRetry : Bool) (go : GemSpawnOutcome) :
    (∀ t sidv tid1,
       codexRunTurnOnce tid isRetry o = .done (.ok t sidv) tid1 →
       ((codexProcessEvents tid o.events).finalResponse = "" →
          t = "Done.") ∧
       ((codexProcessEvents tid o.events).finalResponse ≠ "" →
          t = (codexProcessEvents tid o.events).finalResponse)) ∧
    (∀ t sidv sid1,
       gemRunTurnOnce gsid gRetry go = .done (.ok t sidv) sid1 →
       ((gemProcessEvents gsid go.events).finalResponse = "" →
          t = "Done.") ∧
       ((gemProcessEvents gsid go.events).finalResponse ≠ "" →
          t = (gemProcessEvents gsid go.events).finalResponse)) := by
  constructor
  · intro t sidv tid1 h
    have ht := (codexRunTurnOnce_ok_text tid isRetry o t sidv tid1 h).1
    constructor
    · intro hz; rw [ht, if_pos hz]
    · intro hz; rw [ht, if_neg hz]
  · intro t sidv sid1 h
    have ht := (gemRunTurnOnce_ok_text gsid gRetry go t sidv sid1 h).1
    constructor
    · intro hz; rw [ht, if_pos hz]
    · intro hz; rw [ht, if_neg hz]

/-- Codex spawn with no agent text used by the C10 witness. -/
def c10Codex : SpawnOutcome :=
  { events := [], exitCode := some 0, stderrChunks := [] }

/-- Gemini spawn with agent text `"hi"` used by the C10 witness. -/
def c10Gem : GemSpawnOutcome :=
  { events := [.message "assistant" "hi" true], exitCode := some 0,
    stderrChunks := [] }

/-- Witness for C10: the empty-text Codex turn resolves with `"Done."`,
the Gemini turn with text `"hi"` resolves with `"hi"`. -/
theorem ephemeral_done_fallback_witness :
    (codexRunTurnOnce none false c10Codex = .done (.ok "Done." "") none) ∧
    (((codexProcessEvents none c10Codex.events).finalResponse = "" →
        "Done." = "Done.") ∧
     ((codexProcessEvents none c10Codex.events).finalResponse ≠ "" →
        "Done." = (codexProcessEvents none c10Codex.events).finalResponse)) ∧
    (gemRunTurnOnce none false c10Gem = .done (.ok "hi" "") none) ∧
    (((gemProcessEvents none c10Gem.events).finalResponse = "" →
        "hi" = "Done.") ∧
     ((gemProcessEvents none c10Gem.events).finalResponse ≠ "" →
        "hi" = (gemProcessEvents none c10Gem.events).finalResponse)) :=
  ⟨by decide,
   (ephemeral_done_fallback none false c10Codex none false c10Gem).1
     "Done." "" none (by decide),
   by decide,
   (ephemeral_done_fallback none false c10Codex none false c10Gem).2
     "hi" "" none (by decide)⟩

/-- The first `n` characters are at most `n` characters. -/
lemma jsSliceTo_length_le (s : String) (n : Nat) :
    (jsSliceTo s n).length ≤ n := by
  show (s.data.take n).length ≤ n
  simp

/-! ### C2: when errors surface on the ephemeral Codex backend -/

/-- Event stream of the C2 counterexample: the agent completes the
message `"hi"`, then an error event is captured. -/
def c2Events : List CodexEvent :=
  [.itemCompleted "agent_message" (some "hi"), .errorEvent "boom"]

/-- Spawn outcome of the C2 counterexample: text plus error, exit 0. -/
def c2Outcome : SpawnOutcome :=
  { events := c2Events, exitCode := some 0, stderrChunks := [] }

/-- C2 counterexample: a turn that produced the non-empty agent text
`"hi"` and also captured the error event `"boom"` rejects with that error
instead of resolving with the text — the captured turn-level error is not
restricted to the no-output case. -/
theorem codex_error_with_text_counterexample :
    (codexProcessEvents none c2Events).finalResponse = "hi" ∧
    (codexProcessEvents none c2Events).error = some "boom" ∧
    codexSendMessage none c2Outcome c2Outcome =
      ([false], .err "boom", none) := by
  decide

/-- C2 amended: after the resume-retry check, a captured turn-level error
string is thrown whenever present — even when the agent produced
non-empty text; only the synthesized `Codex failed (exit N)` message
(whose stderr tail is bounded to 500 characters) is restricted to turns
with no agent text and a non-zero exit code. -/
theorem codex_error_surfacing_amended (tid : Option String)
    (isRetry : Bool) (o : SpawnOutcome) :
    (∀ m, (codexProcessEvents tid o.events).error = some m →
       (codexIsResume tid isRetry &&
         codexNoOutput (codexProcessEvents tid o.events)) = false →
       codexRunTurnOnce tid isRetry o =
         .done (.err m) (codexProcessEvents tid o.events).threadId) ∧
    (∀ msg tid1, (codexProcessEvents tid o.events).error = none →
       codexRunTurnOnce tid isRetry o = .done (.err msg) tid1 →
       codexNoOutput (codexProcessEvents tid o.events) = true ∧
       ∃ c, o.exitCode = some c ∧ c ≠ 0 ∧
         msg = codexExitErrMsg c o.stderrChunks) ∧
    (∀ c st, ∃ tail, codexExitErrMsg c st =
       "Codex failed (exit " ++ toString c ++ "):\n" ++ tail ∧
       tail.length ≤ 500) := by
  refine ⟨?_, ?_, ?_⟩
  · intro m hm hA2
    simp only [codexIsResume] at hA2
    unfold codexRunTurnOnce
    dsimp only
    rw [show (!isRetry && truthyOpt tid &&
        codexNoOutput (codexProcessEvents tid o.events) && !isRetry) = false
      from by rw [hA2]; rfl]
    have hs : (codexProcessEvents tid o.events).error.isSome = true := by
      rw [hm]; rfl
    rw [if_neg (by simp), dif_pos hs]
    simp [hm]
  · intro msg tid1 hm h
    unfold codexRunTurnOnce at h
    dsimp only at h
    have hs : ¬ (codexProcessEvents tid o.events).error.isSome = true := by
      rw [hm]; simp
    by_cases hA : (!isRetry && truthyOpt tid &&
        codexNoOutput (codexProcessEvents tid o.events) && !isRetry) = true
    · rw [if_pos hA] at h
      cases h
    · rw [if_neg hA, dif_neg hs] at h
      cases hx : o.exitCode with
      | some c =>
          rw [hx] at h
          dsimp only at h
          by_cases hC : c ≠ 0 ∧
              codexNoOutput (codexProcessEvents tid o.events) = true
          · rw [if_pos hC] at h
            injection h with h1 h2
            injection h1 with hmsg
            exact ⟨hC.2, c, rfl, hC.1, hmsg.symm⟩
          · rw [if_neg hC] at h
            simp at h
      | none =>
          rw [hx] at h
          dsimp only at h
          simp at h
  · intro c st
    refine ⟨_, rfl, ?_⟩
    by_cases hz : jsSliceTo (String.intercalate "\n" st) 500 = ""
    · rw [if_pos hz]
      decide
    · rw [if_neg hz]
      exact jsSliceTo_length_le _ _

/-- Spawn outcome used by the C2 amended-theorem witness: an error event
and nothing else. -/
def c2WitnessOutcome : SpawnOutcome :=
  { events := [.errorEvent "boom"], exitCode := some 0, stderrChunks := [] }

/-- Witness for the amended C2: a non-resume turn with a captured error
rejects with exactly that error. -/
theorem codex_error_surfacing_amended_witness :
    ((codexProcessEvents none c2WitnessOutcome.events).error =
       some "boom") ∧
    ((codexIsResume none false &&
       codexNoOutput (codexProcessEvents none c2WitnessOutcome.events)) =
       false) ∧
    codexRunTurnOnce none false c2WitnessOutcome =
      .done (.err "boom")
        (codexProcessEvents none c2WitnessOutcome.events).threadId :=
  ⟨by decide, by decide,
   (codex_error_surfacing_amended none false c2WitnessOutcome).1 "boom"
     (by decide) (by decide)⟩

/-- Appending one more delivered delta to the join. -/
lemma stringJoin_append_one (l : List String) (x : String) :
    String.join (l ++ [x]) = String.join l ++ x := by
  unfold String.join
  rw [List.foldl_append]
  rfl

/-- Invariant of the persistent reader loop: while the turn is
unresolved, the delivered deltas concatenate to the prose buffer; once
resolved, they concatenate to the resolved final text. -/
lemma claude_sink_inv (events : List ClaudeEvent) :
    ∀ s : ClaudeTurnState,
      ((s.result = none → String.join s.sink = s.prose) ∧
       (∀ t sv, s.result = some (t, sv) → String.join s.sink = t)) →
      (((events.foldl claudeStep s).result = none →
          String.join (events.foldl claudeStep s).sink =
            (events.foldl claudeStep s).prose) ∧
       (∀ t sv, (events.foldl claudeStep s).result = some (t, sv) →
          String.join (events.foldl claudeStep s).sink = t)) := by
  induction events with
  | nil => intro s hs; exact hs
  | cons e rest ih =>
      intro s hs
      apply ih
      obtain ⟨pr, ft, sd, sk, res⟩ := s
      cases res with
      | none =>
          have h1 : String.join sk = pr := hs.1 rfl
          cases e with
          | systemInit sid2 =>
              exact ⟨fun _ => h1, fun t sv h => Option.noConfusion h⟩
          | toolText f =>
              exact ⟨fun _ => h1, fun t sv h => Option.noConfusion h⟩
          | other =>
              exact ⟨fun _ => h1, fun t sv h => Option.noConfusion h⟩
          | streamDelta t =>
              refine ⟨fun _ => ?_, fun t0 sv0 h => Option.noConfusion h⟩
              show String.join (sk ++ [t]) = pr ++ t
              rw [stringJoin_append_one, h1]
          | resultEvent sid2 isErr =>
              cases sid2 with
              | none =>
                  refine ⟨fun h => Option.noConfusion h, fun t0 sv0 h => ?_⟩
                  obtain ⟨h3, h4⟩ :=
                    (Prod.mk.injEq _ _ _ _).mp (Option.some.inj h)
                  show String.join sk = t0
                  rw [← h3]
                  exact h1
              | some v =>
                  refine ⟨fun h => Option.noConfusion h, fun t0 sv0 h => ?_⟩
                  obtain ⟨h3, h4⟩ :=
                    (Prod.mk.injEq _ _ _ _).mp (Option.some.inj h)
                  show String.join sk = t0
                  rw [← h3]
                  exact h1
      | some p =>
          have h1 : ∀ t sv, some p = some (t, sv) → String.join sk = t :=
            hs.2
          cases e with
          | systemInit sid2 => exact ⟨fun h => Option.noConfusion h, h1⟩
          | toolText f => exact ⟨fun h => Option.noConfusion h, h1⟩
          | other => exact ⟨fun h => Option.noConfusion h, h1⟩
          | streamDelta t => exact ⟨fun h => Option.noConfusion h, h1⟩
          | resultEvent sid2 isErr =>
              cases sid2 with
              | none => exact ⟨fun h => Option.noConfusion h, h1⟩
              | some v => exact ⟨fun h => Option.noConfusion h, h1⟩

/-- Every delta the codex event loop hands to the sink is non-empty. -/
lemma codex_sink_nonempty_aux (events : List CodexEvent) :
    ∀ s : CodexPEState, (∀ d ∈ s.sink, d ≠ "") →
      ∀ d ∈ (events.foldl codexPEStep s).sink, d ≠ "" := by
  induction events with
  | nil => intro s hs; exact hs
  | cons e rest ih =>
      intro s hs
      apply ih
      cases e with
      | threadStarted tid2 => simpa [codexPEStep] using hs
      | turnStarted => simpa [codexPEStep] using hs
      | turnCompleted u => simpa [codexPEStep] using hs
      | turnFailed m => simpa [codexPEStep] using hs
      | errorEvent m => simpa [codexPEStep] using hs
      | itemStarted ty txt =>
          by_cases hc : ty = "agent_message" ∧ truthyOpt txt
          · by_cases hd : jsSliceFrom (txt.getD "") s.lastSentLength = ""
            · simpa [codexPEStep, if_pos hc, hd] using hs
            · simp only [codexPEStep, if_pos hc, if_neg hd]
              intro d hdm
              rcases List.mem_append.mp hdm with h | h
              · exact hs d h
              · rw [List.mem_singleton] at h
                rw [h]
                exact hd
          · simpa [codexPEStep, if_neg hc] using hs
      | itemUpdated ty txt =>
          by_cases hc : ty = "agent_message" ∧ truthyOpt txt
          · by_cases hd : jsSliceFrom (txt.getD "") s.lastSentLength = ""
            · simpa [codexPEStep, if_pos hc, hd] using hs
            · simp only [codexPEStep, if_pos hc, if_neg hd]
              intro d hdm
              rcases List.mem_append.mp hdm with h | h
              · exact hs d h
              · rw [List.mem_singleton] at h
                rw [h]
                exact hd
          · simpa [codexPEStep, if_neg hc] using hs
      | itemCompleted ty txt =>
          by_cases hc : ty = "agent_message" ∧ truthyOpt txt
          · by_cases hd : jsSliceFrom (txt.getD "") s.lastSentLength = ""
            · simpa [codexPEStep, if_pos hc, hd] using hs
            · simp only [codexPEStep, if_pos hc, if_neg hd]
              intro d hdm
              rcases List.mem_append.mp hdm with h | h
              · exact hs d h
              · rw [List.mem_singleton] at h
                rw [h]
                exact hd
          · simpa [codexPEStep, if_neg hc] using hs

/-! ### C3: the streaming delta contract -/

/-- Claude event stream of the C3 counterexample: an empty `text_delta`
reaches the sink of a turn that then resolves successfully. -/
def c3ClaudeEvents : List ClaudeEvent :=
  [.streamDelta "", .streamDelta "ok", .resultEvent (some "S1") false]

/-- Codex spawn of the C3 counterexample: an agent-message update emits
the delta `"ab"`, no agent message completes, the child exits 0, so the
final text is `"Done."`. -/
def c3CodexOutcome : SpawnOutcome :=
  { events := [.itemUpdated "agent_message" (some "ab")],
    exitCode := some 0, stderrChunks := [] }

/-- C3 counterexample: the persistent variant invokes the sink with empty
text when the child emits an empty `text_delta`, and for the ephemeral
codex variant the concatenation of the delivered deltas (`"ab"`) is not a
prefix of the final text (`"Done."`) of the successfully resolved turn. -/
theorem delta_stream_counterexample :
    ((claudeRunTurn "" c3ClaudeEvents).result = some ("ok", "S1") ∧
     "" ∈ (claudeRunTurn "" c3ClaudeEvents).sink) ∧
    (codexSendMessage none c3CodexOutcome c3CodexOutcome =
       ([false], .ok "Done." "", none) ∧
     (codexProcessEvents none c3CodexOutcome.events).sink = ["ab"] ∧
     ¬ ∃ rest, String.join ["ab"] ++ rest = "Done.") := by
  refine ⟨by decide, by decide, by decide, ?_⟩
  rintro ⟨rest, hr⟩
  have h2 := jsSliceTo_of_append (String.join ["ab"]) rest
  rw [hr] at h2
  exact absurd h2 (by decide)

/-- C3 amended: deltas are delivered in event-arrival order (the sink is
the ordered invocation list by construction); for the persistent variant
the concatenation of all delivered deltas equals the final text of every
successfully resolving turn — but an individual invocation may carry
empty text; for the ephemeral codex variant every sink invocation is
non-empty — but the concatenation need not be a prefix of the final text
(which falls back to `"Done."` when no agent message completes). -/
theorem delta_stream_amended (sid : String) (events : List ClaudeEvent)
    (tid : Option String) (cevents : List CodexEvent) :
    (∀ t sv, (claudeRunTurn sid events).result = some (t, sv) →
       String.join (claudeRunTurn sid events).sink = t) ∧
    (∀ d ∈ (codexProcessEvents tid cevents).sink, d ≠ "") := by
  constructor
  · intro t sv h
    have base : (claudeTurnInit sid).result = none → True := fun _ => trivial
    have := claude_sink_inv events (claudeTurnInit sid)
      ⟨fun _ => rfl, fun t0 sv0 h0 => by cases h0⟩
    exact this.2 t sv h
  · intro d hd
    exact codex_sink_nonempty_aux cevents (codexPEInit tid)
      (fun d0 hd0 => by cases hd0) d hd

/-- Claude event stream used by the C3 witness. -/
def c3WitnessEvents : List ClaudeEvent :=
  [.streamDelta "hi", .resultEvent (some "S2") false]

/-- Codex event stream used by the C3 witness. -/
def c3WitnessCodexEvents : List CodexEvent :=
  [.itemUpdated "agent_message" (some "x")]

/-- Witness for the amended C3 at concrete streams. -/
theorem delta_stream_amended_witness :
    ((claudeRunTurn "" c3WitnessEvents).result = some ("hi", "S2")) ∧
    (String.join (claudeRunTurn "" c3WitnessEvents).sink = "hi") ∧
    ("x" ∈ (codexProcessEvents none c3WitnessCodexEvents).sink) ∧
    ("x" ≠ "") :=
  ⟨by decide,
   (delta_stream_amended "" c3WitnessEvents none c3WitnessCodexEvents).1
     "hi" "S2" (by decide),
   by decide,
   (delta_stream_amended "" c3WitnessEvents none c3WitnessCodexEvents).2
     "x" (by decide)⟩

/-- The eviction scan keeps returning a candidate once it has one. -/
lemma evictAcc_foldl_ne_none (l : List (String × StoreEntry)) :
    ∀ x, ∃ y, l.foldl evictAccStep (some x) = some y := by
  induction l with
  | nil => intro x; exact ⟨x, rfl⟩
  | cons p rest ih =>
      intro x
      by_cases hb : p.2.busy
      · simpa [evictAccStep, hb] using ih x
      · obtain ⟨x2, t2⟩ := x
        by_cases hlt : p.2.lastActivity < t2
        · simpa [evictAccStep, hb, hlt] using ih (p.1, p.2.lastActivity)
        · simpa [evictAccStep, hb, hlt] using ih (x2, t2)

/-- When the scan finds nothing, the accumulator was empty and every
session was busy. -/
lemma evictAcc_foldl_eq_none (l : List (String × StoreEntry)) :
    ∀ acc, l.foldl evictAccStep acc = none →
      acc = none ∧ ∀ p ∈ l, p.2.busy = true := by
  induction l with
  | nil => intro acc h; exact ⟨h, by simp⟩
  | cons p rest ih =>
      intro acc h
      have hstep := ih (evictAccStep acc p) h
      by_cases hb : p.2.busy
      · have hacc : acc = none := by
          simpa [evictAccStep, hb] using hstep.1
        refine ⟨hacc, fun q hq => ?_⟩
        rcases List.mem_cons.mp hq with h2 | h2
        · rw [h2]; exact hb
        · exact hstep.2 q h2
      · exfalso
        have := hstep.1
        cases hacc : acc with
        | none => rw [hacc] at this; simp [evictAccStep, hb] at this
        | some x =>
            rw [hacc] at this
            obtain ⟨x1, x2⟩ := x
            by_cases hlt : p.2.lastActivity < x2 <;>
              simp [evictAccStep, hb, hlt] at this

/-- All sessions busy means the scan finds nothing. -/
lemma evictAcc_foldl_none_of_busy (l : List (String × StoreEntry))
    (hb : ∀ p ∈ l, p.2.busy = true) :
    l.foldl evictAccStep none = none := by
  induction l with
  | nil => rfl
  | cons p rest ih =>
      have hp : p.2.busy = true := hb p (List.mem_cons_self p rest)
      have : evictAccStep none p = none := by simp [evictAccStep, hp]
      rw [List.foldl_cons, this]
      exact ih (fun q hq => hb q (List.mem_cons_of_mem p hq))

/-- Full characterization of a successful eviction scan: where the result
came from, its minimality among the non-busy entries, and that it only
ever improves on the accumulator. -/
lemma evictAcc_foldl_spec (l : List (String × StoreEntry)) :
    ∀ acc k t, l.foldl evictAccStep acc = some (k, t) →
      ((acc = some (k, t)) ∨
        ∃ e, (k, e) ∈ l ∧ e.busy = false ∧ e.lastActivity = t) ∧
      (∀ p ∈ l, p.2.busy = false → t ≤ p.2.lastActivity) ∧
      (∀ k0 t0, acc = some (k0, t0) → t ≤ t0) := by
  induction l with
  | nil =>
      intro acc k t h
      simp only [List.foldl_nil] at h
      refine ⟨Or.inl h, by simp, fun k0 t0 h0 => ?_⟩
      rw [h] at h0
      obtain ⟨h1, h2⟩ := (Prod.mk.injEq _ _ _ _).mp (Option.some.inj h0)
      rw [h2]
  | cons p rest ih =>
      intro acc k t h
      rw [List.foldl_cons] at h
      have hrest := ih (evictAccStep acc p) k t h
      by_cases hb : p.2.busy
      · have hstep : evictAccStep acc p = acc := by
          simp [evictAccStep, hb]
        rw [hstep] at hrest
        refine ⟨?_, ?_, hrest.2.2⟩
        · rcases hrest.1 with h1 | ⟨e, he, hbe, hla⟩
          · exact Or.inl h1
          · exact Or.inr ⟨e, List.mem_cons_of_mem p he, hbe, hla⟩
        · intro q hq hqb
          rcases List.mem_cons.mp hq with h2 | h2
          · exfalso
            rw [h2] at hqb
            rw [hqb] at hb
            cases hb
          · exact hrest.2.1 q h2 hqb
      · have hbf : p.2.busy = false := by
          cases hpb : p.2.busy
          · rfl
          · exact absurd hpb hb
        cases hacc : acc with
        | none =>
            have hstep : evictAccStep acc p = some (p.1, p.2.lastActivity) := by
              simp [evictAccStep, hb, hacc]
            rw [hstep] at hrest
            have hle : t ≤ p.2.lastActivity :=
              hrest.2.2 p.1 p.2.lastActivity rfl
            refine ⟨?_, ?_, fun k0 t0 h0 => Option.noConfusion h0⟩
            · rcases hrest.1 with h1 | ⟨e, he, hbe, hla⟩
              · obtain ⟨h2, h3⟩ := (Prod.mk.injEq _ _ _ _).mp
                  (Option.some.inj h1.symm)
                refine Or.inr ⟨p.2, ?_, hbf, h3.symm⟩
                rw [h2, Prod.mk.eta]
                exact List.mem_cons_self p rest
              · exact Or.inr ⟨e, List.mem_cons_of_mem p he, hbe, hla⟩
            · intro q hq hqb
              rcases List.mem_cons.mp hq with h2 | h2
              · rw [h2]; exact hle
              · exact hrest.2.1 q h2 hqb
        | some x =>
            obtain ⟨k0, t0⟩ := x
            by_cases hlt : p.2.lastActivity < t0
            · have hstep : evictAccStep acc p =
                  some (p.1, p.2.lastActivity) := by
                simp [evictAccStep, hb, hacc, hlt]
              rw [hstep] at hrest
              have hle : t ≤ p.2.lastActivity :=
                hrest.2.2 p.1 p.2.lastActivity rfl
              refine ⟨?_, ?_, ?_⟩
              · rcases hrest.1 with h1 | ⟨e, he, hbe, hla⟩
                · obtain ⟨h2, h3⟩ := (Prod.mk.injEq _ _ _ _).mp
                    (Option.some.inj h1.symm)
                  refine Or.inr ⟨p.2, ?_, hbf, h3.symm⟩
                  rw [h2, Prod.mk.eta]
                  exact List.mem_cons_self p rest
                · exact Or.inr ⟨e, List.mem_cons_of_mem p he, hbe, hla⟩
              · intro q hq hqb
                rcases List.mem_cons.mp hq with h2 | h2
                · rw [h2]; exact hle
                · exact hrest.2.1 q h2 hqb
              · intro k1 t1 h0
                obtain ⟨h2, h3⟩ := (Prod.mk.injEq _ _ _ _).mp
                  (Option.some.inj h0)
                rw [← h3]
                exact le_trans hle (le_of_lt hlt)
            · have hstep : evictAccStep acc p = some (k0, t0) := by
                simp [evictAccStep, hb, hacc, hlt]
              rw [hstep] at hrest
              have hle : t ≤ t0 := hrest.2.2 k0 t0 rfl
              refine ⟨?_, ?_, ?_⟩
              · rcases hrest.1 with h1 | ⟨e, he, hbe, hla⟩
                · exact Or.inl h1
                · exact Or.inr ⟨e, List.mem_cons_of_mem p he, hbe, hla⟩
              · intro q hq hqb
                rcases List.mem_cons.mp hq with h2 | h2
                · rw [h2]
                  exact le_trans hle (le_of_not_lt hlt)
                · exact hrest.2.1 q h2 hqb
              · intro k1 t1 h0
                obtain ⟨h2, h3⟩ := (Prod.mk.injEq _ _ _ _).mp
                  (Option.some.inj h0)
                rw [← h3]
                exact hle

/-! ### C6: eviction safety -/

/-- C6: below `maxSessions` nothing is evicted; when every session is
busy the store is untouched (the new session is still admitted); when the
scan picks a candidate it is a non-busy session of minimal
`lastActivity`, it is removed, and its process session id is recorded as
dead when non-empty; and `createSession` always records the new entry
under the conversation id. -/
theorem eviction_safety (s : StoreState)
    (hkeys : (s.sessions.map Prod.fst).Nodup) :
    (s.sessions.length < s.maxSessions → enforceMaxSessions s = s) ∧
    ((∀ p ∈ s.sessions, p.2.busy = true) → enforceMaxSessions s = s) ∧
    (∀ k, evictionCandidate s.sessions = some k →
       ∃ e, lookupAssoc s.sessions k = some e ∧ e.busy = false ∧
         (∀ p ∈ s.sessions, p.2.busy = false →
            e.lastActivity ≤ p.2.lastActivity) ∧
         (s.maxSessions ≤ s.sessions.length →
           (enforceMaxSessions s).sessions = delAssoc s.sessions k ∧
           (enforceMaxSessions s).deadSessionIds =
             (if e.procSessionId ≠ "" then
                setAssoc s.deadSessionIds e.procSessionId
                  { sessionId := e.procSessionId, cwd := e.cwd,
                    model := e.model, backend := e.backend }
              else s.deadSessionIds))) ∧
    (∀ convId codexModels cwd model er now,
       lookupAssoc
         (createSession s convId codexModels cwd model er now).1.sessions
         convId =
       some (createSession s convId codexModels cwd model er now).2) := by
  refine ⟨?_, ?_, ?_, ?_⟩
  · intro h
    unfold enforceMaxSessions
    rw [if_pos h]
  · intro hb
    unfold enforceMaxSessions
    by_cases hlen : s.sessions.length < s.maxSessions
    · rw [if_pos hlen]
    · rw [if_neg hlen]
      have : evictionCandidate s.sessions = none := by
        unfold evictionCandidate
        rw [evictAcc_foldl_none_of_busy s.sessions hb]
        rfl
      rw [this]
  · intro k hk
    obtain ⟨⟨k2, t⟩, hfold, hk2⟩ := Option.map_eq_some'.mp hk
    dsimp only at hk2
    rw [hk2] at hfold
    have hspec := evictAcc_foldl_spec s.sessions none k t hfold
    rcases hspec.1 with h1 | ⟨e, he, hbe, hla⟩
    · cases h1
    · have hlook : lookupAssoc s.sessions k = some e :=
        lookupAssoc_eq_of_mem_nodup s.sessions k e hkeys he
      refine ⟨e, hlook, hbe, ?_, ?_⟩
      · intro p hp hpb
        rw [hla]
        exact hspec.2.1 p hp hpb
      · intro hge
        unfold enforceMaxSessions
        rw [if_neg (by omega), hk]
        dsimp only
        rw [hlook]
        exact ⟨rfl, rfl⟩
  · intro convId codexModels cwd model er now
    unfold createSession
    dsimp only
    exact lookupAssoc_setAssoc_self _ convId _

/-- Concrete entry `A` of the C6 witness store. -/
def c6EntryA : StoreEntry :=
  { busy := false, alive := true, procSessionId := "SA", cost := 0,
    backend := .claude, lastActivity := 10, cwd := "/w", model := none }

/-- Concrete entry `B` of the C6 witness store: the oldest non-busy. -/
def c6EntryB : StoreEntry :=
  { busy := false, alive := true, procSessionId := "SB", cost := 0,
    backend := .codex, lastActivity := 3, cwd := "/w", model := some "m" }

/-- The two-session store of the C6 witness, at capacity. -/
def c6Store : StoreState :=
  { sessions := [("A", c6EntryA), ("B", c6EntryB)], deadSessionIds := [],
    persisted := [], maxSessions := 2 }

/-- Witness for C6 at the concrete store: the scan picks `B`. -/
theorem eviction_safety_witness :
    ((c6Store.sessions.map Prod.fst).Nodup ∧
     evictionCandidate c6Store.sessions = some "B") ∧
    (∃ e, lookupAssoc c6Store.sessions "B" = some e ∧ e.busy = false ∧
      (∀ p ∈ c6Store.sessions, p.2.busy = false →
         e.lastActivity ≤ p.2.lastActivity) ∧
      (c6Store.maxSessions ≤ c6Store.sessions.length →
        (enforceMaxSessions c6Store).sessions =
          delAssoc c6Store.sessions "B" ∧
        (enforceMaxSessions c6Store).deadSessionIds =
          (if e.procSessionId ≠ "" then
             setAssoc c6Store.deadSessionIds e.procSessionId
               { sessionId := e.procSessionId, cwd := e.cwd,
                 model := e.model, backend := e.backend }
           else c6Store.deadSessionIds))) :=
  ⟨⟨by decide, by decide⟩,
   (eviction_safety c6Store (by decide)).2.2.1 "B" (by decide)⟩

/-- Unpacking a successful `liveRow`. -/
lemma liveRow_eq_some {q : String × StoreEntry} {r : SessionRow}
    (h : liveRow q = some r) :
    q.2.procSessionId ≠ "" ∧ r.conversationId = q.1 ∧
    r.sessionId = q.2.procSessionId := by
  unfold liveRow at h
  by_cases hz : q.2.procSessionId = ""
  · rw [if_pos hz] at h
    cases h
  · rw [if_neg hz] at h
    have h2 := Option.some.inj h
    rw [← h2]
    exact ⟨hz, rfl, rfl⟩

/-! ### C9: listSessions hides sessions with an empty process session id -/

/-- C9: a live session whose process reports an empty session id is
entirely absent from `listSessions` — no row carries its conversation id
and every emitted row has a non-empty session id — even though
`getSession` still returns it; and a row carrying a session id that
appears among the live rows is never a dead-record row (dead records are
emitted only for ids not present among the emitted live rows). -/
theorem listSessions_empty_sid_hidden (s : StoreState) (convId : String)
    (e : StoreEntry)
    (hkeys : (s.sessions.map Prod.fst).Nodup)
    (hc : lookupAssoc s.sessions convId = some e)
    (hsid : e.procSessionId = "")
    (hconv : convId ≠ "")
    (hdead : ∀ p ∈ s.deadSessionIds, p.1 ≠ "")
    (hkeysne : ∀ q ∈ s.sessions, q.1 ≠ "") :
    getSession s convId = some e ∧
    (∀ r ∈ listSessions s, r.conversationId ≠ convId) ∧
    (∀ r ∈ listSessions s, r.sessionId ≠ "") ∧
    (∀ p ∈ s.deadSessionIds,
       p.1 ∈ (s.sessions.filterMap liveRow).map (fun r => r.sessionId) →
       ∀ r ∈ listSessions s, r.sessionId = p.1 →
         r.conversationId ≠ "") := by
  have hsplit : ∀ r, r ∈ listSessions s →
      r ∈ s.sessions.filterMap liveRow ∨
      r ∈ (s.deadSessionIds.filter
        (fun p => !(((s.sessions.filterMap liveRow).map
          (fun r2 => r2.sessionId)).contains p.1))).map deadRow := by
    intro r hr
    unfold listSessions at hr
    exact List.mem_append.mp hr
  refine ⟨hc, ?_, ?_, ?_⟩
  · intro r hr
    rcases hsplit r hr with h | h
    · obtain ⟨q, hq, hqr⟩ := List.mem_filterMap.mp h
      obtain ⟨hne, hcid, _⟩ := liveRow_eq_some hqr
      rw [hcid]
      intro hkk
      have : lookupAssoc s.sessions q.1 = some q.2 :=
        lookupAssoc_eq_of_mem_nodup s.sessions q.1 q.2 hkeys
          (by rw [Prod.mk.eta]; exact hq)
      rw [hkk, hc] at this
      have h2 := Option.some.inj this
      rw [h2] at hsid
      exact hne hsid
    · obtain ⟨p, hp, hpr⟩ := List.mem_map.mp h
      rw [← hpr]
      show "" ≠ convId
      exact fun h2 => hconv h2.symm
  · intro r hr
    rcases hsplit r hr with h | h
    · obtain ⟨q, hq, hqr⟩ := List.mem_filterMap.mp h
      obtain ⟨hne, _, hsidq⟩ := liveRow_eq_some hqr
      rw [hsidq]
      exact hne
    · obtain ⟨p, hp, hpr⟩ := List.mem_map.mp h
      rw [← hpr]
      show p.1 ≠ ""
      exact hdead p (List.mem_filter.mp hp).1
  · intro p hp hplive r hr hrsid
    rcases hsplit r hr with h | h
    · obtain ⟨q, hq, hqr⟩ := List.mem_filterMap.mp h
      obtain ⟨_, hcid, _⟩ := liveRow_eq_some hqr
      rw [hcid]
      exact hkeysne q hq
    · exfalso
      obtain ⟨p2, hp2, hpr⟩ := List.mem_map.mp h
      have hnotin := (List.mem_filter.mp hp2).2
      have hsid2 : p2.1 = p.1 := by
        rw [← hrsid, ← hpr]
        rfl
      rw [hsid2] at hnotin
      simp only [Bool.not_eq_true'] at hnotin
      unfold List.contains at hnotin
      rw [List.elem_eq_true_of_mem hplive] at hnotin
      cases hnotin

/-- Session entry with an empty process session id (C9 witness). -/
def c9EntryEmpty : StoreEntry :=
  { busy := false, alive := true, procSessionId := "", cost := 0,
    backend := .claude, lastActivity := 5, cwd := "/w", model := none }

/-- Live session entry with session id `S1` (C9 witness). -/
def c9EntryLive : StoreEntry :=
  { busy := false, alive := true, procSessionId := "S1", cost := 0,
    backend := .claude, lastActivity := 7, cwd := "/w", model := none }

/-- C9 witness store: one hidden live session, one visible live session,
one dead record shadowed by a live row and one emitted. -/
def c9Store : StoreState :=
  { sessions := [("conv1", c9EntryEmpty), ("conv2", c9EntryLive)],
    deadSessionIds :=
      [("S1", { sessionId := "S1", cwd := "/w", model := none,
                backend := .claude }),
       ("S2", { sessionId := "S2", cwd := "/v", model := some "m",
                backend := .codex })],
    persisted := [], maxSessions := 5 }

/-- Witness for C9 at the concrete store. -/
theorem listSessions_empty_sid_hidden_witness :
    (lookupAssoc c9Store.sessions "conv1" = some c9EntryEmpty ∧
     c9EntryEmpty.procSessionId = "") ∧
    (getSession c9Store "conv1" = some c9EntryEmpty ∧
     (∀ r ∈ listSessions c9Store, r.conversationId ≠ "conv1") ∧
     (∀ r ∈ listSessions c9Store, r.sessionId ≠ "") ∧
     (∀ p ∈ c9Store.deadSessionIds,
        p.1 ∈ (c9Store.sessions.filterMap liveRow).map
          (fun r => r.sessionId) →
        ∀ r ∈ listSessions c9Store, r.sessionId = p.1 →
          r.conversationId ≠ "")) :=
  ⟨⟨by decide, by decide⟩,
   listSessions_empty_sid_hidden c9Store "conv1" c9EntryEmpty (by decide)
     (by decide) (by decide) (by decide) (by decide) (by decide)⟩

end ClaudeBrain
